import Mathlib

/-!
Shallow embedding of the container-format detection and codec subsystem of
`src/src/workbench/tab/mod.rs` (nbtworkbench), together with proofs of the
specification's claims about it.

The document tree, the binary/text tag codecs and the compression envelope
live outside this file's source; they are represented abstractly, following
the interface the spec gives for them (§4.2 and §2).  Everything that is in
`tab/mod.rs` — the detection chain `Tab::parse_raw`, the format enumerations
and their `cycle`/`rev_cycle`/`encode`, `FilePath`, `Tab::new`,
`Tab::new_empty_tab` and `Tab::save` — is embedded structurally.
-/

/-- Modelled from the spec: the document tree is consumed opaquely; the codec
only distinguishes the root shape (compound, list, region container, or a
disallowed bare-scalar root).  `Scalar` stands for every root shape that is
neither a compound, a list nor a region. -/
inductive NbtElement where
  | Compound
  | List
  | Region
  | Scalar
deriving DecidableEq, Repr

/-- `NbtElement::is_compound`. -/
def NbtElement.is_compound : NbtElement → Bool
  | .Compound => true
  | _ => false

/-- `NbtElement::is_list`. -/
def NbtElement.is_list : NbtElement → Bool
  | .List => true
  | _ => false

/-- `NbtElement::is_region`. -/
def NbtElement.is_region : NbtElement → Bool
  | .Region => true
  | _ => false

/-- Modelled from the spec: `std::path::PathBuf`, reduced to the operations
this subsystem consumes — the file-name component (`Path::file_name`, lossily
converted to a string), the extension (`Path::extension` converted to a
string), and the display string (`Path::to_string_lossy`). -/
structure PathBuf where
  fileName : Option String
  ext : Option String
  str : String
deriving DecidableEq, Repr

/-- `NbtFileFormat` (tab/mod.rs): the closed enumeration of whole-file
variants.  `Nbt` is uncompressed big-endian, `Snbt` is the text form and
`Mca` is the region container. -/
inductive NbtFileFormat where
  | Nbt
  | Gzip
  | Zlib
  | Snbt
  | LittleEndianNbt
  | LittleEndianHeaderNbt
  | Mca
deriving DecidableEq, Repr

/-- `NbtFileFormat::cycle` (tab/mod.rs). -/
def NbtFileFormat.cycle : NbtFileFormat → NbtFileFormat
  | .Nbt => .Gzip
  | .Gzip => .Zlib
  | .Zlib => .LittleEndianNbt
  | .LittleEndianNbt => .LittleEndianHeaderNbt
  | .LittleEndianHeaderNbt => .Snbt
  | .Snbt => .Nbt
  | .Mca => .Mca

/-- `NbtFileFormat::rev_cycle` (tab/mod.rs). -/
def NbtFileFormat.rev_cycle : NbtFileFormat → NbtFileFormat
  | .Nbt => .Snbt
  | .Gzip => .Nbt
  | .Zlib => .Gzip
  | .LittleEndianNbt => .Zlib
  | .LittleEndianHeaderNbt => .LittleEndianNbt
  | .Snbt => .LittleEndianHeaderNbt
  | .Mca => .Mca

/-- `ChunkFileFormat` (tab/mod.rs): compression variant of one chunk inside a
region container.  `Nbt` is the uncompressed variant; `Zlib` carries Rust's
`#[default]` attribute. -/
inductive ChunkFileFormat where
  | Gzip
  | Zlib
  | Nbt
  | Lz4
deriving DecidableEq, Repr

instance : Inhabited ChunkFileFormat := ⟨ChunkFileFormat.Zlib⟩

/-- `ChunkFileFormat::cycle` (tab/mod.rs). -/
def ChunkFileFormat.cycle : ChunkFileFormat → ChunkFileFormat
  | .Gzip => .Zlib
  | .Zlib => .Nbt
  | .Nbt => .Lz4
  | .Lz4 => .Gzip

/-- `ChunkFileFormat::rev_cycle` (tab/mod.rs). -/
def ChunkFileFormat.rev_cycle : ChunkFileFormat → ChunkFileFormat
  | .Gzip => .Lz4
  | .Zlib => .Gzip
  | .Nbt => .Zlib
  | .Lz4 => .Nbt

/-- `flate2::Compression::best()`, the maximum compression level (9). -/
def Compression.best : Nat := 9

/-- Modelled from the spec: the external collaborators of this subsystem —
the binary tag codec entry points of §4.2 (`from_be_mca`, `from_be_file`,
`from_le_file`, `to_be_file`, `to_le_file`), the text codec (`from_str`,
`to_string`), the compression envelope (§2: gzip/zlib/lz4 framing), and
UTF-8 validation.  Bytes are lists of `Nat` (each intended below 256);
decoders return `none` on a structural failure.  A read-based gzip/zlib
encoder driven by `read_to_end` yields the bytes produced so far next to an
optional error, hence the `Option Unit × List Nat` result. -/
structure ExternalCodec where
  from_be_mca : List Nat → Option NbtElement
  decode_gzip : List Nat → Option (List Nat)
  decode_zlib : List Nat → Option (List Nat)
  from_be_file : List Nat → Option NbtElement
  from_le_file : List Nat → Option (NbtElement × Bool)
  from_utf8 : List Nat → Option String
  from_str : String → Option (String × NbtElement)
  to_be_file : NbtElement → List Nat
  to_le_file : NbtElement → Bool → List Nat
  to_string : NbtElement → String
  gzip_encode : Nat → List Nat → Option Unit × List Nat
  zlib_encode : Nat → List Nat → Option Unit × List Nat
  lz4_compress : List Nat → List Nat

/-- The errors `Tab::parse_raw` can return (its `anyhow` contexts). -/
inductive ParseError where
  | McaParse
  | GzipDecode
  | ZlibDecode
  | NbtParse
  | NoFileType (name : String)
deriving DecidableEq, Repr

/-- `buf.first_chunk::<2>().copied().map(u16::from_be_bytes)`: the first two
bytes of the buffer as a big-endian unsigned 16-bit integer, when the buffer
has at least two bytes. -/
def magic2 : List Nat → Option Nat
  | a :: b :: _ => some (a * 256 + b)
  | _ => none

/-- `NbtFileFormat::encode` (tab/mod.rs), with the external serializers and
the compression envelope passed explicitly.  The compression result's error
component is discarded (`let _ = …read_to_end(&mut vec)` in the source) and
the level is always `Compression::best()`. -/
def NbtFileFormat.encode (c : ExternalCodec) (f : NbtFileFormat) (data : NbtElement) : List Nat :=
  match f with
  | .Nbt => c.to_be_file data
  | .Mca => c.to_be_file data
  | .Gzip => (c.gzip_encode Compression.best (c.to_be_file data)).2
  | .Zlib => (c.zlib_encode Compression.best (c.to_be_file data)).2
  | .Snbt => ((c.to_string data).toUTF8.toList.map (fun b => b.toNat))
  | .LittleEndianNbt => c.to_le_file data false
  | .LittleEndianHeaderNbt => c.to_le_file data true

/-- `ChunkFileFormat::encode` (tab/mod.rs). -/
def ChunkFileFormat.encode (c : ExternalCodec) (f : ChunkFileFormat) (data : NbtElement) : List Nat :=
  match f with
  | .Nbt => c.to_be_file data
  | .Gzip => (c.gzip_encode Compression.best (c.to_be_file data)).2
  | .Zlib => (c.zlib_encode Compression.best (c.to_be_file data)).2
  | .Lz4 => c.lz4_compress (c.to_be_file data)

/-- `FilePathError` (tab/mod.rs). -/
inductive FilePathError where
  | PathHasNoName (path : PathBuf)
deriving DecidableEq, Repr

/-- `FilePath` (tab/mod.rs): a path with a cached display name and cached
display string. -/
structure FilePath where
  path : PathBuf
  cached_name : String
  cached_path_str : String
deriving DecidableEq, Repr

/-- `FilePath::name_for_path` (tab/mod.rs):
`path.file_name().map(|s| s.to_string_lossy().into_owned())`. -/
def FilePath.name_for_path (p : PathBuf) : Option String := p.fileName

/-- `FilePath::new` (tab/mod.rs). -/
def FilePath.new (p : PathBuf) : Except FilePathError FilePath :=
  match FilePath.name_for_path p with
  | none => .error (FilePathError.PathHasNoName p)
  | some n => .ok { path := p, cached_name := n, cached_path_str := p.str }

/-- `FilePath::set_path` (tab/mod.rs): `&mut self` is rendered as state
passing — the result pairs the updated `FilePath` with
`Ok(old_path)`/`Err(..)`.  The `?` on `name_for_path(..).ok_or_else(..)?`
fires before any field is assigned, so on failure the receiver is returned
unchanged. -/
def FilePath.set_path (fp : FilePath) (p : PathBuf) : FilePath × Except FilePathError PathBuf :=
  match FilePath.name_for_path p with
  | none => (fp, .error (FilePathError.PathHasNoName p))
  | some n => ({ path := p, cached_name := n, cached_path_str := p.str }, .ok fp.path)

/-- `FilePath::name` (tab/mod.rs): O(1) read of the cache. -/
def FilePath.name (fp : FilePath) : String := fp.cached_name

/-- `FilePath::path_str` (tab/mod.rs): O(1) read of the cache. -/
def FilePath.path_str (fp : FilePath) : String := fp.cached_path_str

/-- `Tab` (tab/mod.rs), restricted to the fields the codec subsystem
specifies: the root document, the active `FilePath` and the active format.
The remaining fields are interaction/render state outside this core. -/
structure Tab where
  root : NbtElement
  path : FilePath
  format : NbtFileFormat
deriving DecidableEq, Repr

/-- `Tab::new` (tab/mod.rs): `ensure!(nbt.is_compound() || nbt.is_list(),
"Parsed NBT was not a Compound or List")` then construction. -/
def Tab.new (nbt : NbtElement) (path : FilePath) (format : NbtFileFormat) : Except String Tab :=
  if nbt.is_compound || nbt.is_list then
    .ok { root := nbt, path := path, format := format }
  else
    .error ("Parsed NBT was not a Compound or List")

/-- The path literal `"new.nbt"` used by `Tab::new_empty_tab`. -/
def newTabPath : PathBuf :=
  { fileName := some ("new.nbt"), ext := some ("nbt"), str := "new.nbt" }

/-- `Tab::new_empty_tab` (tab/mod.rs), restricted to the embedded fields.
The source builds the root with `if region { Region::default() } else
{ Compound::default() }` but the format with `if region { Nbt } else
{ Mca }`, and builds the path with `FilePath::new("new.nbt").expect(..)`
(the fallback arm below is the unreachable branch of that `expect`). -/
def Tab.new_empty_tab (region : Bool) : Tab :=
  { root := if region then NbtElement.Region else NbtElement.Compound,
    path :=
      match FilePath.new newTabPath with
      | .ok fp => fp
      | .error _ => { path := newTabPath, cached_name := "", cached_path_str := "" },
    format := if region then NbtFileFormat.Nbt else NbtFileFormat.Mca }

/-- `Tab::parse_raw` (tab/mod.rs): the detection chain.  In order: region
extension, gzip magic, zlib magics, uncompressed big-endian, little-endian
(with the header flag threaded back into the format), text.  The
`#[cfg(debug_assertions)]` logging blocks evaluate to `true` and do not
affect control flow, so they are omitted. -/
def Tab.parse_raw (c : ExternalCodec) (path : PathBuf) (buf : List Nat) :
    Except ParseError (NbtElement × NbtFileFormat) :=
  if path.ext = some ("mca") ∨ path.ext = some ("mcr") then
    match c.from_be_mca buf with
    | none => .error ParseError.McaParse
    | some nbt => .ok (nbt, NbtFileFormat.Mca)
  else if magic2 buf = some 0x1F8B then
    match c.decode_gzip buf with
    | none => .error ParseError.GzipDecode
    | some decompressed =>
      match c.from_be_file decompressed with
      | none => .error ParseError.NbtParse
      | some nbt => .ok (nbt, NbtFileFormat.Gzip)
  else if magic2 buf = some 0x7801 ∨ magic2 buf = some 0x789C ∨ magic2 buf = some 0x78DA then
    match c.decode_zlib buf with
    | none => .error ParseError.ZlibDecode
    | some decompressed =>
      match c.from_be_file decompressed with
      | none => .error ParseError.NbtParse
      | some nbt => .ok (nbt, NbtFileFormat.Zlib)
  else
    match c.from_be_file buf with
    | some nbt => .ok (nbt, NbtFileFormat.Nbt)
    | none =>
      match c.from_le_file buf with
      | some (nbt, header) =>
        .ok (nbt, if header then NbtFileFormat.LittleEndianHeaderNbt else NbtFileFormat.LittleEndianNbt)
      | none =>
        match (c.from_utf8 buf).bind (fun s => c.from_str s) with
        | some p => .ok (p.2, NbtFileFormat.Snbt)
        | none => .error (ParseError.NoFileType (Option.getD path.fileName ("")))

/-- The region step of the detection chain in isolation: parse as a region
container, any failure terminal. -/
def mcaStep (c : ExternalCodec) (buf : List Nat) : Except ParseError (NbtElement × NbtFileFormat) :=
  match c.from_be_mca buf with
  | none => .error ParseError.McaParse
  | some nbt => .ok (nbt, NbtFileFormat.Mca)

/-- The gzip step of the detection chain in isolation: decompress then decode
big-endian, any failure terminal. -/
def gzipStep (c : ExternalCodec) (buf : List Nat) : Except ParseError (NbtElement × NbtFileFormat) :=
  match c.decode_gzip buf with
  | none => .error ParseError.GzipDecode
  | some decompressed =>
    match c.from_be_file decompressed with
    | none => .error ParseError.NbtParse
    | some nbt => .ok (nbt, NbtFileFormat.Gzip)

/-- The zlib step of the detection chain in isolation. -/
def zlibStep (c : ExternalCodec) (buf : List Nat) : Except ParseError (NbtElement × NbtFileFormat) :=
  match c.decode_zlib buf with
  | none => .error ParseError.ZlibDecode
  | some decompressed =>
    match c.from_be_file decompressed with
    | none => .error ParseError.NbtParse
    | some nbt => .ok (nbt, NbtFileFormat.Zlib)

/-- A filesystem snapshot: the writes performed, newest first. -/
def FS : Type := List (PathBuf × List Nat)

/-- `Tab::save` (tab/mod.rs, desktop variant), rendered as state passing over
the tab and a filesystem snapshot.  `dialog` is the outcome of
`native_dialog … .save_single_file().show()` (`none` covers both a cancelled
and a failed dialog, on which the source returns `Ok(())` without writing).
In the dialog branch the source first performs `std::fs::write(&path, …)` and
only then calls `self.path.set_path(path)?`; `fs::write` itself is modelled
as always succeeding.  History bookkeeping (`on_save`) and
`save_selected_text` (a no-op when no text is selected) are outside the
embedded state. -/
def Tab.save (c : ExternalCodec) (t : Tab) (force_dialog : Bool) (dialog : Option PathBuf) (fs : FS) :
    Tab × FS × Except FilePathError Unit :=
  if force_dialog = false then
    (t, (t.path.path, NbtFileFormat.encode c t.format t.root) :: fs, .ok ())
  else
    match dialog with
    | none => (t, fs, .ok ())
    | some path =>
      let written : FS := (path, NbtFileFormat.encode c t.format t.root) :: fs
      match FilePath.set_path t.path path with
      | (fp, .ok _) => ({ t with path := fp }, written, .ok ())
      | (fp, .error e) => ({ t with path := fp }, written, .error e)

/-- Concrete codec: region parse succeeds, every other decoder fails, and the
serializers/compressors return small fixed outputs (the gzip/zlib encoders
report an error next to their partial output). -/
def codecA : ExternalCodec :=
  { from_be_mca := fun _ => some NbtElement.Region,
    decode_gzip := fun _ => none,
    decode_zlib := fun _ => none,
    from_be_file := fun _ => none,
    from_le_file := fun _ => none,
    from_utf8 := fun _ => none,
    from_str := fun _ => none,
    to_be_file := fun _ => [10, 0, 0],
    to_le_file := fun _ _ => [10, 0, 0],
    to_string := fun _ => "",
    gzip_encode := fun _ _ => (some (), [31]),
    zlib_encode := fun _ _ => (some (), [120]),
    lz4_compress := fun b => b }

/-- A path whose extension is a region-file extension. -/
def mcaPath : PathBuf :=
  { fileName := some ("r.0.0.mca"), ext := some ("mca"), str := "r.0.0.mca" }

/-- A path with a non-region extension. -/
def datPath : PathBuf :=
  { fileName := some ("level.dat"), ext := some ("dat"), str := "level.dat" }

/-- A path with the plain `nbt` extension. -/
def nbtPath : PathBuf :=
  { fileName := some ("plain.nbt"), ext := some ("nbt"), str := "plain.nbt" }

/-- A bare root path: no extractable file-name component. -/
def rootPath : PathBuf := { fileName := none, ext := none, str := "/" }

/-- A well-formed document path. -/
def docPath : PathBuf :=
  { fileName := some ("doc.nbt"), ext := some ("nbt"), str := "/tmp/doc.nbt" }

/-- A `FilePath` holding `docPath`, with its caches populated. -/
def fp0 : FilePath :=
  { path := docPath, cached_name := "doc.nbt", cached_path_str := "/tmp/doc.nbt" }

/-- A tab holding a compound root in the uncompressed format. -/
def tab0 : Tab := { root := NbtElement.Compound, path := fp0, format := NbtFileFormat.Nbt }

/-- C4: for every `NbtFileFormat` value `f`, `f.cycle().rev_cycle() == f` and
`f.rev_cycle().cycle() == f`; in particular `Mca` is a fixed point of both
`cycle` and `rev_cycle`. -/
theorem NbtFileFormat.cycle_rev_cycle_closure :
    (∀ f : NbtFileFormat, f.cycle.rev_cycle = f ∧ f.rev_cycle.cycle = f) ∧
    NbtFileFormat.cycle NbtFileFormat.Mca = NbtFileFormat.Mca ∧
    NbtFileFormat.rev_cycle NbtFileFormat.Mca = NbtFileFormat.Mca :=
  ⟨fun f => by cases f <;> exact ⟨rfl, rfl⟩, rfl, rfl⟩

/-- C5: `NbtFileFormat::cycle` follows exactly the order Uncompressed (`Nbt`)
→ `Gzip` → `Zlib` → `LittleEndianNbt` → `LittleEndianHeaderNbt` → Text
(`Snbt`) → back to `Nbt`, and `rev_cycle` is its exact inverse on these six
non-terminal values. -/
theorem NbtFileFormat.cycle_fixed_order :
    NbtFileFormat.cycle NbtFileFormat.Nbt = NbtFileFormat.Gzip ∧
    NbtFileFormat.cycle NbtFileFormat.Gzip = NbtFileFormat.Zlib ∧
    NbtFileFormat.cycle NbtFileFormat.Zlib = NbtFileFormat.LittleEndianNbt ∧
    NbtFileFormat.cycle NbtFileFormat.LittleEndianNbt = NbtFileFormat.LittleEndianHeaderNbt ∧
    NbtFileFormat.cycle NbtFileFormat.LittleEndianHeaderNbt = NbtFileFormat.Snbt ∧
    NbtFileFormat.cycle NbtFileFormat.Snbt = NbtFileFormat.Nbt ∧
    NbtFileFormat.rev_cycle NbtFileFormat.Gzip = NbtFileFormat.Nbt ∧
    NbtFileFormat.rev_cycle NbtFileFormat.Zlib = NbtFileFormat.Gzip ∧
    NbtFileFormat.rev_cycle NbtFileFormat.LittleEndianNbt = NbtFileFormat.Zlib ∧
    NbtFileFormat.rev_cycle NbtFileFormat.LittleEndianHeaderNbt = NbtFileFormat.LittleEndianNbt ∧
    NbtFileFormat.rev_cycle NbtFileFormat.Snbt = NbtFileFormat.LittleEndianHeaderNbt ∧
    NbtFileFormat.rev_cycle NbtFileFormat.Nbt = NbtFileFormat.Snbt :=
  ⟨rfl, rfl, rfl, rfl, rfl, rfl, rfl, rfl, rfl, rfl, rfl, rfl⟩

/-- C8: `ChunkFileFormat` is the closed four-element set with `Zlib` as the
default value; `cycle` follows exactly Gzip → Zlib → Uncompressed (`Nbt`) →
Lz4 → Gzip, and `rev_cycle` is its exact inverse. -/
theorem ChunkFileFormat.closed_set_default_cycle :
    (∀ ch : ChunkFileFormat,
      ch = ChunkFileFormat.Gzip ∨ ch = ChunkFileFormat.Zlib ∨
      ch = ChunkFileFormat.Nbt ∨ ch = ChunkFileFormat.Lz4) ∧
    (default : ChunkFileFormat) = ChunkFileFormat.Zlib ∧
    ChunkFileFormat.cycle ChunkFileFormat.Gzip = ChunkFileFormat.Zlib ∧
    ChunkFileFormat.cycle ChunkFileFormat.Zlib = ChunkFileFormat.Nbt ∧
    ChunkFileFormat.cycle ChunkFileFormat.Nbt = ChunkFileFormat.Lz4 ∧
    ChunkFileFormat.cycle ChunkFileFormat.Lz4 = ChunkFileFormat.Gzip ∧
    (∀ ch : ChunkFileFormat, ch.cycle.rev_cycle = ch ∧ ch.rev_cycle.cycle = ch) :=
  ⟨fun ch => by cases ch <;> simp, rfl, rfl, rfl, rfl, rfl,
   fun ch => by cases ch <;> exact ⟨rfl, rfl⟩⟩

/-- C10: evaluation of `Tab::new_empty_tab` at both inputs.  The root is a
region document exactly when `region = true`, but the format pairing is
inverted: `region = true` yields the uncompressed single-document format
`Nbt`, and `region = false` yields the region-container format `Mca` —
inconsistent with `Tab::parse_raw`, which always pairs a region root with
`Mca`, and with the save-dialog filter table, which maps `Mca` to the
"Region File" filter. -/
theorem Tab.new_empty_tab_root_format_mismatch :
    (Tab.new_empty_tab true).root = NbtElement.Region ∧
    (Tab.new_empty_tab true).format = NbtFileFormat.Nbt ∧
    (Tab.new_empty_tab false).root = NbtElement.Compound ∧
    (Tab.new_empty_tab false).format = NbtFileFormat.Mca :=
  ⟨rfl, rfl, rfl, rfl⟩

/-- C7: `FilePath::set_path` on a path with no extractable file name returns
an error and leaves the stored path and both caches unchanged (so `name()`
and `path_str()` are unchanged); on success it updates all three and returns
the previous path. -/
theorem FilePath.set_path_atomic (fp : FilePath) (p : PathBuf) :
    (p.fileName = none →
      (FilePath.set_path fp p).1 = fp ∧
      (FilePath.set_path fp p).2 = .error (FilePathError.PathHasNoName p) ∧
      (FilePath.set_path fp p).1.name = fp.name ∧
      (FilePath.set_path fp p).1.path_str = fp.path_str) ∧
    (∀ n, p.fileName = some n →
      (FilePath.set_path fp p).1.path = p ∧
      (FilePath.set_path fp p).1.name = n ∧
      (FilePath.set_path fp p).1.path_str = p.str ∧
      (FilePath.set_path fp p).2 = .ok fp.path) := by
  constructor
  · intro h
    simp [FilePath.set_path, FilePath.name_for_path, h, FilePath.name, FilePath.path_str]
  · intro n h
    simp [FilePath.set_path, FilePath.name_for_path, h, FilePath.name, FilePath.path_str]

/-- C7 witness: `set_path` at the bare root path (no file name) leaves `fp0`
intact and errors; at `docPath` it succeeds and returns the previous path. -/
theorem FilePath.set_path_atomic_witness :
    (FilePath.set_path fp0 rootPath).1 = fp0 ∧
    (FilePath.set_path fp0 rootPath).2 = .error (FilePathError.PathHasNoName rootPath) ∧
    (FilePath.set_path fp0 docPath).2 = .ok fp0.path :=
  ⟨((FilePath.set_path_atomic fp0 rootPath).1 rfl).1,
   ((FilePath.set_path_atomic fp0 rootPath).1 rfl).2.1,
   ((FilePath.set_path_atomic fp0 docPath).2 ("doc.nbt") rfl).2.2.2⟩

/-- C6: when the path hint's extension is `mca` or `mcr`, `Tab::parse_raw`
is exactly the region step: its result is determined by `from_be_mca` alone,
a region parse failure is a terminal error, and no other decoder is ever
consulted. -/
theorem Tab.parse_raw_region_terminal (c : ExternalCodec) (path : PathBuf) (buf : List Nat)
    (h : path.ext = some ("mca") ∨ path.ext = some ("mcr")) :
    Tab.parse_raw c path buf = mcaStep c buf ∧
    (c.from_be_mca buf = none → Tab.parse_raw c path buf = .error ParseError.McaParse) ∧
    (∀ e, c.from_be_mca buf = some e →
      Tab.parse_raw c path buf = .ok (e, NbtFileFormat.Mca)) := by
  have hp : Tab.parse_raw c path buf = mcaStep c buf := by
    simp only [Tab.parse_raw, mcaStep, if_pos h]
  refine ⟨hp, ?_, ?_⟩
  · intro hn
    rw [hp]
    simp [mcaStep, hn]
  · intro e he
    rw [hp]
    simp [mcaStep, he]

/-- C6 witness: a buffer that even starts with the gzip magic, under an
`mca` path hint, is parsed as a region container. -/
theorem Tab.parse_raw_region_terminal_witness :
    mcaPath.ext = some ("mca") ∧
    Tab.parse_raw codecA mcaPath [31, 139] = .ok (NbtElement.Region, NbtFileFormat.Mca) :=
  ⟨rfl, (Tab.parse_raw_region_terminal codecA mcaPath [31, 139] (Or.inl rfl)).2.2
    NbtElement.Region rfl⟩

/-- C1 counterexample: the claim quantifies over every input buffer, but the
region-extension step precedes the magic-number step.  With path hint
`r.0.0.mca`, the buffer `[0x1F, 0x8B]` has the gzip magic and its gzip
decompression fails (`decode_gzip` returns `none`), yet `parse_raw` returns
`Ok` via the region step instead of a terminal decompression error, and its
result differs from the gzip step's. -/
theorem Tab.parse_raw_magic_counterexample :
    magic2 [31, 139] = some 0x1F8B ∧
    codecA.decode_gzip [31, 139] = none ∧
    Tab.parse_raw codecA mcaPath [31, 139] = .ok (NbtElement.Region, NbtFileFormat.Mca) ∧
    Tab.parse_raw codecA mcaPath [31, 139] ≠ gzipStep codecA [31, 139] := by
  have h1 : Tab.parse_raw codecA mcaPath [31, 139] = .ok (NbtElement.Region, NbtFileFormat.Mca) := rfl
  have h2 : gzipStep codecA [31, 139] = .error ParseError.GzipDecode := rfl
  refine ⟨rfl, rfl, h1, ?_⟩
  rw [h1, h2]
  exact fun h => Except.noConfusion h

/-- C1 (amended with the path-hint condition): when the path hint's extension
is neither `mca` nor `mcr`, a buffer whose first two big-endian bytes are
`0x1F8B` makes `parse_raw` exactly the gzip step, and a buffer whose first
two bytes are one of the zlib magics makes it exactly the zlib step: the
result is determined by the decompressor and the inner big-endian decoder
alone, their failures are terminal errors, and the uncompressed, little-
endian and text decoders are never consulted. -/
theorem Tab.parse_raw_magic_precedence (c : ExternalCodec) (path : PathBuf) (buf : List Nat)
    (hmca : path.ext ≠ some ("mca")) (hmcr : path.ext ≠ some ("mcr")) :
    (magic2 buf = some 0x1F8B → Tab.parse_raw c path buf = gzipStep c buf) ∧
    ((magic2 buf = some 0x7801 ∨ magic2 buf = some 0x789C ∨ magic2 buf = some 0x78DA) →
      Tab.parse_raw c path buf = zlibStep c buf) := by
  have hext : ¬(path.ext = some ("mca") ∨ path.ext = some ("mcr")) :=
    fun h => h.elim (fun h1 => hmca h1) (fun h1 => hmcr h1)
  constructor
  · intro hm
    simp only [Tab.parse_raw, gzipStep, if_neg hext, if_pos hm]
  · intro hm
    have hne : magic2 buf ≠ some 0x1F8B := by
      rcases hm with h | h | h <;> rw [h] <;> decide
    simp only [Tab.parse_raw, zlibStep, if_neg hext, if_neg hne, if_pos hm]

/-- Concrete codec for the gzip path: decompression succeeds and the inner
big-endian decode of the decompressed bytes yields a compound root. -/
def codecB : ExternalCodec :=
  { codecA with
    decode_gzip := fun _ => some [9],
    from_be_file := fun b => if b = [9] then some NbtElement.Compound else none }

/-- C1 witness: under a `dat` path hint, a gzip-magic buffer is settled
entirely by the gzip step, here successfully. -/
theorem Tab.parse_raw_magic_precedence_witness :
    datPath.ext ≠ some ("mca") ∧
    magic2 [31, 139] = some 0x1F8B ∧
    Tab.parse_raw codecB datPath [31, 139] = gzipStep codecB [31, 139] ∧
    Tab.parse_raw codecB datPath [31, 139] = .ok (NbtElement.Compound, NbtFileFormat.Gzip) :=
  ⟨by decide, rfl,
   (Tab.parse_raw_magic_precedence codecB datPath [31, 139] (by decide) (by decide)).1 rfl,
   rfl⟩

/-- Concrete codec for the uncompressed big-endian step: the big-endian
decode of any buffer is structurally valid but yields a bare-scalar root,
while the little-endian decode would yield a compound root. -/
def codecC : ExternalCodec :=
  { codecA with
    from_be_file := fun _ => some NbtElement.Scalar,
    from_le_file := fun _ => some (NbtElement.Compound, false) }

/-- C2 counterexample: with no region extension and no magic number, the
big-endian decode of `[1, 2]` is structurally valid with a scalar root, and
a later candidate (little-endian, compound root) exists; the claim demands
that the big-endian step be treated as failed and detection fall through,
but `parse_raw` returns the scalar-rooted document with the `Nbt` format. -/
theorem Tab.parse_raw_root_shape_counterexample :
    codecC.from_be_file [1, 2] = some NbtElement.Scalar ∧
    NbtElement.is_compound NbtElement.Scalar = false ∧
    NbtElement.is_list NbtElement.Scalar = false ∧
    codecC.from_le_file [1, 2] = some (NbtElement.Compound, false) ∧
    Tab.parse_raw codecC nbtPath [1, 2] = .ok (NbtElement.Scalar, NbtFileFormat.Nbt) :=
  ⟨rfl, rfl, rfl, rfl, rfl⟩

/-- Concrete codec for the little-endian step: the big-endian decode fails
and the little-endian decode of any buffer yields a scalar root with the
header flag set. -/
def codecE : ExternalCodec :=
  { codecA with from_le_file := fun _ => some (NbtElement.Scalar, true) }

/-- Concrete codec for the text step: both binary decodes fail, UTF-8
validation succeeds and the text parse yields a scalar root. -/
def codecF : ExternalCodec :=
  { codecA with
    from_utf8 := fun _ => some ("abc"),
    from_str := fun s => if s = "abc" then some ("", NbtElement.Scalar) else none }

/-- C2 (amended): `parse_raw` performs no root-shape re-check inside the
fallback chain — whichever of the uncompressed big-endian, little-endian or
text steps first succeeds structurally, its document is returned with that
step's format regardless of the root's shape.  The root-shape invariant is
instead enforced afterwards by `Tab::new`, which rejects a root that is
neither a compound nor a list with a terminal error (no fall-through to
another candidate). -/
theorem Tab.parse_raw_no_root_shape_recheck (c : ExternalCodec) (path : PathBuf)
    (buf : List Nat) (e : NbtElement)
    (hmca : path.ext ≠ some ("mca")) (hmcr : path.ext ≠ some ("mcr"))
    (h1 : magic2 buf ≠ some 0x1F8B) (h2 : magic2 buf ≠ some 0x7801)
    (h3 : magic2 buf ≠ some 0x789C) (h4 : magic2 buf ≠ some 0x78DA) :
    (c.from_be_file buf = some e → Tab.parse_raw c path buf = .ok (e, NbtFileFormat.Nbt)) ∧
    (∀ header, c.from_be_file buf = none → c.from_le_file buf = some (e, header) →
      Tab.parse_raw c path buf =
        .ok (e, if header then NbtFileFormat.LittleEndianHeaderNbt
                else NbtFileFormat.LittleEndianNbt)) ∧
    (∀ s rest, c.from_be_file buf = none → c.from_le_file buf = none →
      c.from_utf8 buf = some s → c.from_str s = some (rest, e) →
      Tab.parse_raw c path buf = .ok (e, NbtFileFormat.Snbt)) ∧
    (∀ (fp : FilePath) (f : NbtFileFormat),
      e.is_compound = false → e.is_list = false →
      Tab.new e fp f = .error ("Parsed NBT was not a Compound or List")) := by
  have hext : ¬(path.ext = some ("mca") ∨ path.ext = some ("mcr")) :=
    fun h => h.elim (fun ha => hmca ha) (fun ha => hmcr ha)
  have hz : ¬(magic2 buf = some 0x7801 ∨ magic2 buf = some 0x789C ∨ magic2 buf = some 0x78DA) :=
    fun h => h.elim (fun ha => h2 ha) (fun hb => hb.elim (fun ha => h3 ha) (fun ha => h4 ha))
  refine ⟨?_, ?_, ?_, ?_⟩
  · intro hbe
    simp only [Tab.parse_raw, if_neg hext, if_neg h1, if_neg hz, hbe]
  · intro header hbe hle
    simp only [Tab.parse_raw, if_neg hext, if_neg h1, if_neg hz, hbe, hle]
  · intro s rest hbe hle hu hs
    simp only [Tab.parse_raw, if_neg hext, if_neg h1, if_neg hz, hbe, hle, hu,
      Option.some_bind, hs]
  · intro fp f hc hl
    simp [Tab.new, hc, hl]

/-- C2 witness: the scalar-rooted parse is returned unchecked at each of the
three fallback steps — big-endian (`codecC`), little-endian with the header
flag (`codecE`), and text (`codecF`) — and `Tab::new` then rejects the
scalar root with a terminal error. -/
theorem Tab.parse_raw_no_root_shape_recheck_witness :
    Tab.parse_raw codecC nbtPath [1, 2] = .ok (NbtElement.Scalar, NbtFileFormat.Nbt) ∧
    Tab.parse_raw codecE nbtPath [1, 2] =
      .ok (NbtElement.Scalar, NbtFileFormat.LittleEndianHeaderNbt) ∧
    Tab.parse_raw codecF nbtPath [1, 2] = .ok (NbtElement.Scalar, NbtFileFormat.Snbt) ∧
    Tab.new NbtElement.Scalar fp0 NbtFileFormat.Nbt =
      .error ("Parsed NBT was not a Compound or List") :=
  ⟨(Tab.parse_raw_no_root_shape_recheck codecC nbtPath [1, 2] NbtElement.Scalar
      (by decide) (by decide) (by decide) (by decide) (by decide) (by decide)).1 rfl,
   (Tab.parse_raw_no_root_shape_recheck codecE nbtPath [1, 2] NbtElement.Scalar
      (by decide) (by decide) (by decide) (by decide) (by decide) (by decide)).2.1 true rfl rfl,
   (Tab.parse_raw_no_root_shape_recheck codecF nbtPath [1, 2] NbtElement.Scalar
      (by decide) (by decide) (by decide) (by decide) (by decide) (by decide)).2.2.1
     ("abc") ("") rfl rfl rfl rfl,
   (Tab.parse_raw_no_root_shape_recheck codecC nbtPath [1, 2] NbtElement.Scalar
      (by decide) (by decide) (by decide) (by decide) (by decide) (by decide)).2.2.2
     fp0 NbtFileFormat.Nbt rfl rfl⟩

/-- C3 counterexample: saving `tab0` with a dialog-chosen destination that
has no extractable file name returns the `PathHasNoName` error, yet the
encoded bytes have already been written to that destination (the filesystem
snapshot is no longer empty). -/
theorem Tab.save_dialog_counterexample :
    (Tab.save codecA tab0 true (some rootPath) []).2.2 =
      .error (FilePathError.PathHasNoName rootPath) ∧
    (Tab.save codecA tab0 true (some rootPath) []).2.1 = [(rootPath, [10, 0, 0])] :=
  ⟨rfl, rfl⟩

/-- C3 (amended): in the dialog branch of `Tab::save`, the bytes are written
to the chosen destination before `FilePath::set_path` validation runs; a
destination with no extractable file name makes the save return the
`PathHasNoName` error, but the encoded file has already been written, while
the tab's stored path (and its caches) are left unchanged. -/
theorem Tab.save_dialog_writes_before_validation (c : ExternalCodec) (t : Tab)
    (p : PathBuf) (fs : FS) (h : p.fileName = none) :
    Tab.save c t true (some p) fs =
      (t, (p, NbtFileFormat.encode c t.format t.root) :: fs,
        .error (FilePathError.PathHasNoName p)) := by
  simp [Tab.save, FilePath.set_path, FilePath.name_for_path, h]

/-- C3 witness: the amended statement evaluated at `tab0` and the bare root
path. -/
theorem Tab.save_dialog_writes_before_validation_witness :
    Tab.save codecA tab0 true (some rootPath) [] =
      (tab0, [(rootPath, [10, 0, 0])], .error (FilePathError.PathHasNoName rootPath)) :=
  Tab.save_dialog_writes_before_validation codecA tab0 rootPath [] rfl

/-- C9: `NbtFileFormat::encode` and `ChunkFileFormat::encode` are total
(they return a byte vector by type, never an error); their output depends on
the compression envelope only through the bytes it produces at the maximum
level `Compression::best()` — never through its error component and never
through any other compression level — and whatever partial output the
gzip/zlib encoder produced next to a failure is returned as-is. -/
theorem encode_swallows_compression_failures (c c' : ExternalCodec) (f : NbtFileFormat)
    (ch : ChunkFileFormat) (data : NbtElement)
    (hbe : c'.to_be_file = c.to_be_file)
    (hle : c'.to_le_file = c.to_le_file)
    (hstr : c'.to_string = c.to_string)
    (hgz : ∀ b, (c'.gzip_encode Compression.best b).2 = (c.gzip_encode Compression.best b).2)
    (hzl : ∀ b, (c'.zlib_encode Compression.best b).2 = (c.zlib_encode Compression.best b).2)
    (hlz : c'.lz4_compress = c.lz4_compress) :
    NbtFileFormat.encode c' f data = NbtFileFormat.encode c f data ∧
    ChunkFileFormat.encode c' ch data = ChunkFileFormat.encode c ch data ∧
    (∀ err out, c.gzip_encode Compression.best (c.to_be_file data) = (err, out) →
      NbtFileFormat.encode c NbtFileFormat.Gzip data = out) ∧
    (∀ err out, c.zlib_encode Compression.best (c.to_be_file data) = (err, out) →
      NbtFileFormat.encode c NbtFileFormat.Zlib data = out) := by
  refine ⟨?_, ?_, ?_, ?_⟩
  · cases f with
    | Nbt => simp [NbtFileFormat.encode, hbe]
    | Mca => simp [NbtFileFormat.encode, hbe]
    | Gzip =>
      simp only [NbtFileFormat.encode, hbe]
      exact hgz (c.to_be_file data)
    | Zlib =>
      simp only [NbtFileFormat.encode, hbe]
      exact hzl (c.to_be_file data)
    | Snbt => simp [NbtFileFormat.encode, hstr]
    | LittleEndianNbt => simp [NbtFileFormat.encode, hle]
    | LittleEndianHeaderNbt => simp [NbtFileFormat.encode, hle]
  · cases ch with
    | Nbt => simp [ChunkFileFormat.encode, hbe]
    | Gzip =>
      simp only [ChunkFileFormat.encode, hbe]
      exact hgz (c.to_be_file data)
    | Zlib =>
      simp only [ChunkFileFormat.encode, hbe]
      exact hzl (c.to_be_file data)
    | Lz4 => simp [ChunkFileFormat.encode, hbe, hlz]
  · intro err out h
    simp [NbtFileFormat.encode, h]
  · intro err out h
    simp [NbtFileFormat.encode, h]

/-- A codec agreeing with `codecA` on the bytes produced at the best
compression level, but with no error report and different behaviour at
every other level. -/
def codecD : ExternalCodec :=
  { codecA with
    gzip_encode := fun lvl _ => if lvl = 9 then (none, [31]) else (none, []),
    zlib_encode := fun lvl _ => if lvl = 9 then (none, [120]) else (none, []) }

/-- C9 witness: `codecA` reports a compression error and `codecD` does not,
and they differ at all non-best levels, yet every encode result agrees, and
`codecA`'s partial gzip output `[31]` is returned despite the error. -/
theorem encode_swallows_compression_failures_witness :
    NbtFileFormat.encode codecD NbtFileFormat.Gzip NbtElement.Compound =
      NbtFileFormat.encode codecA NbtFileFormat.Gzip NbtElement.Compound ∧
    ChunkFileFormat.encode codecD ChunkFileFormat.Zlib NbtElement.Compound =
      ChunkFileFormat.encode codecA ChunkFileFormat.Zlib NbtElement.Compound ∧
    NbtFileFormat.encode codecA NbtFileFormat.Gzip NbtElement.Compound = [31] :=
  ⟨(encode_swallows_compression_failures codecA codecD NbtFileFormat.Gzip
      ChunkFileFormat.Zlib NbtElement.Compound rfl rfl rfl (fun _ => rfl) (fun _ => rfl) rfl).1,
   (encode_swallows_compression_failures codecA codecD NbtFileFormat.Gzip
      ChunkFileFormat.Zlib NbtElement.Compound rfl rfl rfl (fun _ => rfl) (fun _ => rfl) rfl).2.1,
   (encode_swallows_compression_failures codecA codecA NbtFileFormat.Gzip
      ChunkFileFormat.Zlib NbtElement.Compound rfl rfl rfl (fun _ => rfl) (fun _ => rfl) rfl).2.2.1
     (some ()) [31] rfl⟩
